import Mathlib

/-!
Shallow embedding of the AURA framework calculator engine
(`src/calculators/web-app/vite.config.js`, calculator-logic part).

Numbers are modelled as `ℚ` (the JavaScript code computes with IEEE doubles;
the claims under study are structural/algebraic, so the idealised rational
semantics is used).  Month indices and stage durations are `ℕ` (the engine
loops over integer months and every preset uses integer stage durations).
JavaScript `null`/"not computable" results are modelled as `Option`.
Optional configuration objects (`throughput`, `latency`, `optionality`) are
`Option` of a record; absent numeric task fields are modelled as `0`, which
agrees with JavaScript truthiness in every guard of the source
(`!task.errorCost`, `task.volumePerWeek ? _ : 0`, ...).
`Math.random()` draws are supplied explicitly as a stream `ℕ → ℚ`.
-/

namespace Aura

structure Task where
  hoursPerWeek : ℚ
  hourlyRate : ℚ
  accuracy : ℚ
  oversightRate : ℚ
  volumePerWeek : ℚ
  errorCost : ℚ
  baselineErrorRate : ℚ
  deriving Repr, DecidableEq

structure CostStructure where
  initialDevelopment : ℚ
  trainingInitial : ℚ
  changeManagement : ℚ
  platformMonthly : ℚ
  apiCostPerCall : ℚ
  estimatedCallsPerMonth : ℚ
  maintenanceMonthly : ℚ
  trainingOngoing : ℚ
  deriving Repr, DecidableEq

structure RiskProfile where
  technical : ℚ
  adoption : ℚ
  regulatory : ℚ
  vendor : ℚ
  deriving Repr, DecidableEq

structure ThroughputConfig where
  enabled : Bool
  oldCapacity : ℚ
  newCapacity : ℚ
  valuePerUnit : ℚ
  utilizationRate : ℚ
  deriving Repr, DecidableEq

structure LatencyConfig where
  enabled : Bool
  oldTimeHours : ℚ
  newTimeHours : ℚ
  transactionsPerMonth : ℚ
  valuePerHourSaved : ℚ
  sensitivityFactor : ℚ
  deriving Repr, DecidableEq

structure OptionalityConfig where
  enabled : Bool
  processInsights : ℚ
  dataAssets : ℚ
  capabilityOptions : ℚ
  probabilityFactor : ℚ
  deriving Repr, DecidableEq

structure MaturityConfig where
  pilot : ℕ
  proven : ℕ
  scaled : ℕ
  learningRate : ℚ
  deriving Repr, DecidableEq

structure Project where
  tasks : List Task
  costs : CostStructure
  risks : RiskProfile
  throughput : Option ThroughputConfig
  latency : Option LatencyConfig
  optionality : Option OptionalityConfig
  duration : ℕ
  maturity : MaturityConfig
  discountRate : ℚ
  deriving Repr, DecidableEq

structure DimensionBreakdown where
  dla : ℚ
  ta : ℚ
  dqp : ℚ
  lv : ℚ
  olv : ℚ
  deriving Repr, DecidableEq

structure MonthlyProjection where
  month : ℕ
  stage : String
  multiplier : ℚ
  grossValue : ℚ
  riskAdjustedValue : ℚ
  cost : ℚ
  netValue : ℚ
  cumulativeNet : ℚ
  breakdown : DimensionBreakdown
  deriving Repr, DecidableEq

structure ValueBreakdown where
  dla : ℚ
  ta : ℚ
  dqp : ℚ
  lv : ℚ
  olv : ℚ
  total : ℚ
  deriving Repr, DecidableEq

structure FullResults where
  projections : List MonthlyProjection
  totalGross : ℚ
  totalRiskAdjusted : ℚ
  totalCost : ℚ
  npv : ℚ
  payback : Option ℚ
  irr : Option ℚ
  roi : ℚ
  valueBreakdown : ValueBreakdown
  compositeRisk : ℚ
  riskAdjustment : ℚ
  deriving Repr, DecidableEq

def WEEKS_PER_MONTH : ℚ := 433 / 100

def calculateDLA (tasks : List Task) : ℚ :=
  tasks.foldl
    (fun total task =>
      total + (task.hoursPerWeek * WEEKS_PER_MONTH) * task.hourlyRate *
        (task.accuracy * (1 - task.oversightRate)))
    0

def calculateTA (throughput : Option ThroughputConfig) : ℚ :=
  match throughput with
  | none => 0
  | some t =>
    if t.enabled = false then 0
    else if t.newCapacity - t.oldCapacity ≤ 0 then 0
    else (t.newCapacity - t.oldCapacity) * t.valuePerUnit * t.utilizationRate

def calculateDQP (tasks : List Task) : ℚ :=
  tasks.foldl
    (fun total task =>
      -- JS: `if (!task.errorCost || !task.baselineErrorRate) return total`
      if task.errorCost = 0 ∨ task.baselineErrorRate = 0 then total
      else
        -- JS: `task.volumePerWeek ? task.volumePerWeek * WEEKS_PER_MONTH : 0`
        let decisionsPerMonth := if task.volumePerWeek = 0 then 0
          else task.volumePerWeek * WEEKS_PER_MONTH
        let aiErrorRate := 1 - task.accuracy
        let errorReduction := max 0 (task.baselineErrorRate - aiErrorRate)
        total + decisionsPerMonth * errorReduction * task.errorCost)
    0

def calculateLV (latency : Option LatencyConfig) : ℚ :=
  match latency with
  | none => 0
  | some l =>
    if l.enabled = false then 0
    else if l.oldTimeHours - l.newTimeHours ≤ 0 then 0
    else l.transactionsPerMonth * (l.oldTimeHours - l.newTimeHours) *
      l.valuePerHourSaved * l.sensitivityFactor

def calculateOLV (optionality : Option OptionalityConfig) : ℚ :=
  match optionality with
  | none => 0
  | some o =>
    if o.enabled = false then 0
    else ((o.processInsights + o.dataAssets + o.capabilityOptions) / 12) *
      o.probabilityFactor

def calculateCompositeRisk (risks : RiskProfile) : ℚ :=
  -- JS folds `Object.entries(weights)` in insertion order with
  -- `total + (risks[key] || 0) * weight`; all four fields are present here,
  -- and `x || 0 = x` whenever `x` is a number (0 maps to 0 either way).
  0 + risks.technical * (35 / 100) + risks.adoption * (35 / 100) +
    risks.regulatory * (15 / 100) + risks.vendor * (15 / 100)

def getMaturityMultiplier (month : ℕ) (maturityConfig : MaturityConfig) : ℚ :=
  if month ≤ maturityConfig.pilot then 3 / 10
  else if month ≤ maturityConfig.pilot + maturityConfig.proven then 7 / 10
  else if month ≤ maturityConfig.pilot + maturityConfig.proven + maturityConfig.scaled then 1
  else
    min ((13 / 10) * (1 + maturityConfig.learningRate) ^
      (month - (maturityConfig.pilot + maturityConfig.proven + maturityConfig.scaled)))
      (9 / 5)

def getMaturityStage (month : ℕ) (maturityConfig : MaturityConfig) : String :=
  if month ≤ maturityConfig.pilot then "Pilot"
  else if month ≤ maturityConfig.pilot + maturityConfig.proven then "Proven"
  else if month ≤ maturityConfig.pilot + maturityConfig.proven + maturityConfig.scaled then "Scaled"
  else "Optimized"

def initialCostOf (costs : CostStructure) : ℚ :=
  costs.initialDevelopment + costs.trainingInitial + costs.changeManagement

def monthlyCostOf (costs : CostStructure) : ℚ :=
  costs.platformMonthly + costs.apiCostPerCall * costs.estimatedCallsPerMonth +
    costs.maintenanceMonthly + costs.trainingOngoing

/-- The body of the `for (let month = 1; month <= duration; month++)` loop of
`calculateMonthlyProjections`, run over an explicit list of month indices with
the running `cumulativeNet` accumulator threaded through. -/
def projLoop (baseDLA baseTA baseDQP baseLV baseOLV riskAdjustment
    initialCost monthlyCost : ℚ) (maturity : MaturityConfig) :
    List ℕ → ℚ → List MonthlyProjection
  | [], _ => []
  | month :: months, cumulativeNet =>
    let multiplier := getMaturityMultiplier month maturity
    let stage := getMaturityStage month maturity
    let baseMonthlyValue := baseDLA + baseTA + baseDQP + baseLV + baseOLV
    let grossValue := baseMonthlyValue * multiplier
    let riskAdjustedValue := grossValue * riskAdjustment
    let cost := if month = 1 then initialCost + monthlyCost else monthlyCost
    let netValue := riskAdjustedValue - cost
    let cum := cumulativeNet + netValue
    { month := month
      stage := stage
      multiplier := multiplier
      grossValue := grossValue
      riskAdjustedValue := riskAdjustedValue
      cost := cost
      netValue := netValue
      cumulativeNet := cum
      breakdown :=
        { dla := baseDLA * multiplier
          ta := baseTA * multiplier
          dqp := baseDQP * multiplier
          lv := baseLV * multiplier
          olv := baseOLV * multiplier } } ::
      projLoop baseDLA baseTA baseDQP baseLV baseOLV riskAdjustment
        initialCost monthlyCost maturity months cum

def calculateMonthlyProjections (project : Project) : List MonthlyProjection :=
  projLoop (calculateDLA project.tasks) (calculateTA project.throughput)
    (calculateDQP project.tasks) (calculateLV project.latency)
    (calculateOLV project.optionality)
    (1 - calculateCompositeRisk project.risks)
    (initialCostOf project.costs) (monthlyCostOf project.costs)
    project.maturity
    (List.range' 1 project.duration)
    (-(initialCostOf project.costs))

def calculateNPV (projections : List MonthlyProjection) (discountRate : ℚ) : ℚ :=
  projections.foldl
    (fun npv p => npv + p.netValue / (1 + discountRate / 12) ^ p.month)
    0

/-- The scan of `calculatePaybackPeriod` from index 1 on: `prev` is the
projection at the previous index (whose `cumulativeNet` was `< 0`). -/
def paybackAux (prev : MonthlyProjection) : List MonthlyProjection → Option ℚ
  | [] => none
  | curr :: rest =>
    if 0 ≤ curr.cumulativeNet then
      let valueChange := curr.cumulativeNet - prev.cumulativeNet
      if valueChange ≠ 0 then
        some ((prev.month : ℚ) + (-prev.cumulativeNet) / valueChange)
      else some (curr.month : ℚ)
    else paybackAux curr rest

def calculatePaybackPeriod (projections : List MonthlyProjection) : Option ℚ :=
  match projections with
  | [] => none
  | p :: rest =>
    if 0 ≤ p.cumulativeNet then some (p.month : ℚ)
    else paybackAux p rest

def irrNpv (cashFlows : List ℚ) (rate : ℚ) : ℚ :=
  (cashFlows.enum.map (fun tc => tc.2 / (1 + rate) ^ (tc.1 + 1))).sum

def irrDeriv (cashFlows : List ℚ) (rate : ℚ) : ℚ :=
  -(cashFlows.enum.map
      (fun tc => ((tc.1 + 1 : ℕ) : ℚ) * tc.2 / ((1 + rate) ^ (tc.1 + 1) * (1 + rate)))).sum

def irrNext (cashFlows : List ℚ) (rate : ℚ) : ℚ :=
  rate - irrNpv cashFlows rate / irrDeriv cashFlows rate

def irrLoop (cashFlows : List ℚ) (tolerance : ℚ) : ℚ → ℕ → Option ℚ
  | _, 0 => none
  | rate, fuel + 1 =>
    -- `irrNext cashFlows rate` is the source's `newRate = rate - npv/npvDerivative`
    if |irrDeriv cashFlows rate| < tolerance then none
    else if |irrNext cashFlows rate - rate| < tolerance then
      some (((1 + irrNext cashFlows rate) ^ 12 - 1) * 100)
    else irrLoop cashFlows tolerance (irrNext cashFlows rate) fuel

def calculateIRR (projections : List MonthlyProjection)
    (maxIterations : ℕ) (tolerance : ℚ) : Option ℚ :=
  let cashFlows := projections.map (·.netValue)
  if cashFlows.all (fun cf => decide (0 ≤ cf)) ||
     cashFlows.all (fun cf => decide (cf ≤ 0)) then none
  else irrLoop cashFlows tolerance (1 / 10 / 12) maxIterations

def calculateFullResults (project : Project) : FullResults :=
  let projections := calculateMonthlyProjections project
  let totalGross : ℚ := projections.foldl (fun sum p => sum + p.grossValue) 0
  let totalRiskAdjusted : ℚ := projections.foldl (fun sum p => sum + p.riskAdjustedValue) 0
  let totalCost : ℚ := projections.foldl (fun sum p => sum + p.cost) 0
  -- JS: `project.discountRate || 0.10` (a zero rate falls back to 0.10)
  let npv := calculateNPV projections
    (if project.discountRate = 0 then 1 / 10 else project.discountRate)
  let payback := calculatePaybackPeriod projections
  let irr := calculateIRR projections 100 (1 / 1000000)
  let roi := if 0 < totalCost then ((totalRiskAdjusted - totalCost) / totalCost) * 100 else 0
  let vbDla := calculateDLA project.tasks
  let vbTa := calculateTA project.throughput
  let vbDqp := calculateDQP project.tasks
  let vbLv := calculateLV project.latency
  let vbOlv := calculateOLV project.optionality
  { projections := projections
    totalGross := totalGross
    totalRiskAdjusted := totalRiskAdjusted
    totalCost := totalCost
    npv := npv
    payback := payback
    irr := irr
    roi := roi
    valueBreakdown :=
      { dla := vbDla, ta := vbTa, dqp := vbDqp, lv := vbLv, olv := vbOlv
        total := vbDla + vbTa + vbDqp + vbLv + vbOlv }
    compositeRisk := calculateCompositeRisk project.risks
    riskAdjustment := 1 - calculateCompositeRisk project.risks }

structure IterationResult where
  roi : ℚ
  npv : ℚ
  payback : Option ℚ
  deriving Repr, DecidableEq

structure PercentileStats where
  p10 : ℚ
  p50 : ℚ
  p90 : ℚ
  mean : ℚ
  deriving Repr, DecidableEq

structure PaybackStats where
  p10 : ℚ
  p50 : ℚ
  p90 : ℚ
  mean : Option ℚ
  deriving Repr, DecidableEq

structure MonteCarloOutput where
  roi : PercentileStats
  npv : PercentileStats
  payback : PaybackStats
  distribution : List IterationResult
  deriving Repr, DecidableEq

structure SensitivityPoint where
  multiplier : ℚ
  roi : ℚ
  npv : ℚ
  payback : Option ℚ
  deriving Repr, DecidableEq

/-- `JSON.parse(JSON.stringify(project))`: a structural deep copy.  Every field
of every record involved is a plain number, boolean or array, so the JSON round
trip reproduces the value exactly; crucially, the copy shares no object
identity with the caller's `project`, which the explicit reconstruction below
models. -/
def deepCopyTask (t : Task) : Task :=
  { hoursPerWeek := t.hoursPerWeek
    hourlyRate := t.hourlyRate
    accuracy := t.accuracy
    oversightRate := t.oversightRate
    volumePerWeek := t.volumePerWeek
    errorCost := t.errorCost
    baselineErrorRate := t.baselineErrorRate }

def deepCopyProject (p : Project) : Project :=
  { tasks := p.tasks.map deepCopyTask
    costs :=
      { initialDevelopment := p.costs.initialDevelopment
        trainingInitial := p.costs.trainingInitial
        changeManagement := p.costs.changeManagement
        platformMonthly := p.costs.platformMonthly
        apiCostPerCall := p.costs.apiCostPerCall
        estimatedCallsPerMonth := p.costs.estimatedCallsPerMonth
        maintenanceMonthly := p.costs.maintenanceMonthly
        trainingOngoing := p.costs.trainingOngoing }
    risks :=
      { technical := p.risks.technical
        adoption := p.risks.adoption
        regulatory := p.risks.regulatory
        vendor := p.risks.vendor }
    throughput := p.throughput
    latency := p.latency
    optionality := p.optionality
    duration := p.duration
    maturity :=
      { pilot := p.maturity.pilot
        proven := p.maturity.proven
        scaled := p.maturity.scaled
        learningRate := p.maturity.learningRate }
    discountRate := p.discountRate }

/-- `Math.min(1, Math.max(lo, x))`. -/
def clampAbove (lo x : ℚ) : ℚ := min 1 (max lo x)

/-- The per-iteration Monte Carlo perturbation of the task list: each task's
accuracy is scaled by `0.9 + rand*0.2` and clamped to `[0.5, 1]`, consuming one
draw `g k` per task. Returns the varied tasks and the next draw index. -/
def mcVaryTasks (g : ℕ → ℚ) : ℕ → List Task → List Task × ℕ
  | k, [] => ([], k)
  | k, t :: ts =>
    let t2 := { t with accuracy := clampAbove (1 / 2) (t.accuracy * (9 / 10 + g k * (2 / 10))) }
    let rest := mcVaryTasks g (k + 1) ts
    (t2 :: rest.1, rest.2)

/-- One Monte Carlo perturbation of a (deep-copied) project: accuracy ±10%,
`initialDevelopment`/`platformMonthly` ±20%, each risk scalar ±30% clamped to
`[0, 1]` (keys visited in insertion order: technical, adoption, regulatory,
vendor).  Returns the varied project and the next draw index. -/
def mcVary (g : ℕ → ℚ) (k : ℕ) (p : Project) : Project × ℕ :=
  let tk := mcVaryTasks g k p.tasks
  let k1 := tk.2
  ({ p with
      tasks := tk.1
      costs := { p.costs with
        initialDevelopment := p.costs.initialDevelopment * (8 / 10 + g k1 * (4 / 10))
        platformMonthly := p.costs.platformMonthly * (8 / 10 + g (k1 + 1) * (4 / 10)) }
      risks :=
        { technical := min 1 (max 0 (p.risks.technical * (7 / 10 + g (k1 + 2) * (6 / 10))))
          adoption := min 1 (max 0 (p.risks.adoption * (7 / 10 + g (k1 + 3) * (6 / 10))))
          regulatory := min 1 (max 0 (p.risks.regulatory * (7 / 10 + g (k1 + 4) * (6 / 10))))
          vendor := min 1 (max 0 (p.risks.vendor * (7 / 10 + g (k1 + 5) * (6 / 10)))) } },
    k1 + 6)

/-- The Monte Carlo iteration loop.  Each iteration deep-copies the caller's
`project`, perturbs only the copy, and runs the full pipeline on it; the second
component is the caller's project as observable after the loop (the explicit
state-passing form of the claim that the loop never writes through `project`). -/
def mcLoop (g : ℕ → ℚ) (project : Project) : ℕ → ℕ → List IterationResult × Project
  | 0, _ => ([], project)
  | n + 1, k =>
    let varied := mcVary g k (deepCopyProject project)
    let result := calculateFullResults varied.1
    let rest := mcLoop g project n varied.2
    ({ roi := result.roi, npv := result.npv, payback := result.payback } :: rest.1, rest.2)

/-- `arr[Math.floor(arr.length * p / 100)] || 0`: the values indexed here are
numbers, and a falsy number is `0`, so the JS expression equals
`getD 0` of the optional lookup. -/
def getPercentile (arr : List ℚ) (p : ℕ) : ℚ :=
  (arr.get? (arr.length * p / 100)).getD 0

/-- Aggregation step of `runMonteCarloSimulation`: sort the per-iteration
samples (payback restricted to the non-null ones), then take nearest-rank
percentiles and means.  `Array.prototype.sort` with a numeric comparator
produces the unique `≤`-sorted permutation of a list of numbers, which
`List.insertionSort` also produces. -/
def mcAggregate (results : List IterationResult) : MonteCarloOutput :=
  let sortedROI := List.insertionSort (· ≤ ·) (results.map (·.roi))
  let sortedNPV := List.insertionSort (· ≤ ·) (results.map (·.npv))
  let sortedPayback := List.insertionSort (· ≤ ·) (results.filterMap (·.payback))
  { roi :=
      { p10 := getPercentile sortedROI 10
        p50 := getPercentile sortedROI 50
        p90 := getPercentile sortedROI 90
        mean := sortedROI.sum / (sortedROI.length : ℚ) }
    npv :=
      { p10 := getPercentile sortedNPV 10
        p50 := getPercentile sortedNPV 50
        p90 := getPercentile sortedNPV 90
        mean := sortedNPV.sum / (sortedNPV.length : ℚ) }
    payback :=
      { p10 := getPercentile sortedPayback 10
        p50 := getPercentile sortedPayback 50
        p90 := getPercentile sortedPayback 90
        mean := if 0 < sortedPayback.length then
            some (sortedPayback.sum / (sortedPayback.length : ℚ))
          else none }
    distribution := results }

/-- `runMonteCarloSimulation` together with the caller-visible `project` after
the call (second component). -/
def runMonteCarloWithCaller (project : Project) (iterations : ℕ) (g : ℕ → ℚ) :
    MonteCarloOutput × Project :=
  (mcAggregate (mcLoop g project iterations 0).1, (mcLoop g project iterations 0).2)

def runMonteCarloSimulation (project : Project) (iterations : ℕ) (g : ℕ → ℚ) :
    MonteCarloOutput :=
  (runMonteCarloWithCaller project iterations g).1

/-- The `switch (parameter)` body of `runSensitivityAnalysis`, applied to the
deep copy `vp` of the caller's project. -/
def applyParameterVariation (parameter : String) (multiplier : ℚ) (vp : Project) : Project :=
  if parameter = "accuracy" then
    { vp with tasks := vp.tasks.map (fun t =>
        { t with accuracy := min 1 (t.accuracy * multiplier) }) }
  else if parameter = "hourlyRate" then
    { vp with tasks := vp.tasks.map (fun t =>
        { t with hourlyRate := t.hourlyRate * multiplier }) }
  else if parameter = "cost" then
    { vp with costs := { vp.costs with
        initialDevelopment := vp.costs.initialDevelopment * multiplier
        platformMonthly := vp.costs.platformMonthly * multiplier
        maintenanceMonthly := vp.costs.maintenanceMonthly * multiplier } }
  else if parameter = "risk" then
    { vp with risks :=
        { technical := min 1 (vp.risks.technical * multiplier)
          adoption := min 1 (vp.risks.adoption * multiplier)
          regulatory := min 1 (vp.risks.regulatory * multiplier)
          vendor := min 1 (vp.risks.vendor * multiplier) } }
  else vp

/-- The `variations.map (multiplier => ...)` loop of `runSensitivityAnalysis`,
with the caller-visible `project` threaded through as second component. -/
def sensLoop (project : Project) (parameter : String) :
    List ℚ → List SensitivityPoint × Project
  | [] => ([], project)
  | multiplier :: ms =>
    let varied := applyParameterVariation parameter multiplier (deepCopyProject project)
    let result := calculateFullResults varied
    let rest := sensLoop project parameter ms
    ({ multiplier := multiplier, roi := result.roi, npv := result.npv
       payback := result.payback } :: rest.1, rest.2)

def runSensitivityWithCaller (project : Project) (parameter : String)
    (variations : List ℚ) : List SensitivityPoint × Project :=
  sensLoop project parameter variations

def runSensitivityAnalysis (project : Project) (parameter : String)
    (variations : List ℚ) : List SensitivityPoint :=
  (runSensitivityWithCaller project parameter variations).1

/-! ### Concrete fixtures used by witnesses and counterexamples -/

def zeroBreakdown : DimensionBreakdown :=
  { dla := 0, ta := 0, dqp := 0, lv := 0, olv := 0 }

/-- A projection row carrying only a month and a cumulative net value (all
other fields zeroed); `calculatePaybackPeriod` reads nothing else. -/
def mkCumRow (m : ℕ) (cum : ℚ) : MonthlyProjection :=
  { month := m, stage := "Pilot", multiplier := 0, grossValue := 0
    riskAdjustedValue := 0, cost := 0, netValue := 0, cumulativeNet := cum
    breakdown := zeroBreakdown }

/-- A projection row carrying only a month and a net value (all other fields
zeroed); `calculateNPV` reads nothing else. -/
def mkFlowRow (m : ℕ) (net : ℚ) : MonthlyProjection :=
  { month := m, stage := "Pilot", multiplier := 0, grossValue := 0
    riskAdjustedValue := 0, cost := 0, netValue := net, cumulativeNet := 0
    breakdown := zeroBreakdown }

def wCosts : CostStructure :=
  { initialDevelopment := 100, trainingInitial := 0, changeManagement := 0
    platformMonthly := 1, apiCostPerCall := 0, estimatedCallsPerMonth := 0
    maintenanceMonthly := 0, trainingOngoing := 0 }

def wMaturity : MaturityConfig :=
  { pilot := 1, proven := 1, scaled := 1, learningRate := 0 }

/-- A minimal valid project: no tasks, positive costs, duration 1. -/
def wProject : Project :=
  { tasks := [], costs := wCosts, risks := { technical := 0, adoption := 0, regulatory := 0, vendor := 0 }
    throughput := none, latency := none, optionality := none
    duration := 1, maturity := wMaturity, discountRate := 0 }

/-- Task with a negative `errorCost`: decision-quality value *falls* as
accuracy rises. -/
def cexTask : Task :=
  { hoursPerWeek := 0, hourlyRate := 0, accuracy := 1 / 2, oversightRate := 0
    volumePerWeek := 1, errorCost := -100, baselineErrorRate := 1 }

/-- Project satisfying every hypothesis named by claim C8 (non-negative
hours/rate, accuracy and oversight in `[0,1]`, risks in `[0,1]`) on which the
accuracy-sensitivity ROI is strictly *decreasing*. -/
def cexC8Project : Project :=
  { tasks := [cexTask], costs :=
      { initialDevelopment := 0, trainingInitial := 0, changeManagement := 0
        platformMonthly := 1, apiCostPerCall := 0, estimatedCallsPerMonth := 0
        maintenanceMonthly := 0, trainingOngoing := 0 }
    risks := { technical := 0, adoption := 0, regulatory := 0, vendor := 0 }
    throughput := none, latency := none, optionality := none
    duration := 1, maturity := wMaturity, discountRate := 0 }

/-- The linear interpolation `prevMonth + (-prevCumulative)/(currCumulative - prevCumulative)`. -/
def interpPayback (prev curr : MonthlyProjection) : ℚ :=
  (prev.month : ℚ) + (-prev.cumulativeNet) / (curr.cumulativeNet - prev.cumulativeNet)

/-- Flows showing NPV need not fall as the rate rises: `-100` in month 1,
`+1` in month 2. -/
def cexNpvFlows : List MonthlyProjection := [mkFlowRow 1 (-100), mkFlowRow 2 1]

/-- The sequence of Newton-Raphson rate iterates of `calculateIRR`, starting
from an arbitrary rate `r` (`irrNext` is total on `ℚ`; on the prefix actually
visited by `irrLoop` the divisor has magnitude `≥ tolerance`, so the junk
value of division by zero is never consulted there). -/
def irrIter (cashFlows : List ℚ) (r : ℚ) : ℕ → ℚ
  | 0 => r
  | k + 1 => irrNext cashFlows (irrIter cashFlows r k)

/-- Case (ii) of the IRR claim: the NPV-derivative magnitude falls below the
tolerance at the current rate, so `irrLoop` aborts with `none`. -/
def irrDerivFail (cashFlows : List ℚ) (tolerance r : ℚ) : Prop :=
  |irrDeriv cashFlows r| < tolerance

/-- The convergence exit: the derivative check passes and the Newton update
moves the rate by less than the tolerance, so `irrLoop` returns a number. -/
def irrConv (cashFlows : List ℚ) (tolerance r : ℚ) : Prop :=
  tolerance ≤ |irrDeriv cashFlows r| ∧ |irrNext cashFlows r - r| < tolerance

/-- The loop leaves its iteration at rate `r` (either exit). -/
def irrStop (cashFlows : List ℚ) (tolerance r : ℚ) : Prop :=
  irrDerivFail cashFlows tolerance r ∨ irrConv cashFlows tolerance r

/-- Case (i) of the IRR claim: all net values share one sign. -/
def irrSameSign (cashFlows : List ℚ) : Prop :=
  (∀ cf ∈ cashFlows, 0 ≤ cf) ∨ (∀ cf ∈ cashFlows, cf ≤ 0)

end Aura

/-! ### Helper lemmas -/

namespace Aura

theorem foldlAdd_eq_sum {α : Type} (f : α → ℚ) :
    ∀ (l : List α) (a : ℚ), l.foldl (fun acc x => acc + f x) a = a + (l.map f).sum
  | [], a => by simp
  | x :: l, a => by
    simp only [List.foldl_cons, List.map_cons, List.sum_cons]
    rw [foldlAdd_eq_sum f l (a + f x)]
    ring

theorem sum_map_lt_sum_map {α : Type} (f g : α → ℚ) (l : List α)
    (hle : ∀ x ∈ l, f x ≤ g x) (x₀ : α) (hx₀ : x₀ ∈ l) (hlt : f x₀ < g x₀) :
    (l.map f).sum < (l.map g).sum := by
  induction l with
  | nil => cases hx₀
  | cons y l ih =>
    simp only [List.map_cons, List.sum_cons]
    rcases List.mem_cons.mp hx₀ with h | h
    · subst h
      have : (l.map f).sum ≤ (l.map g).sum :=
        List.sum_le_sum (fun x hx => hle x (List.mem_cons_of_mem _ hx))
      linarith
    · have hy := hle y (List.mem_cons_self y l)
      have := ih (fun x hx => hle x (List.mem_cons_of_mem _ hx)) h
      linarith

end Aura

/-! ### C5: maturity multiplier -/

namespace Aura

theorem getMaturityMultiplier_optimized (cfg : MaturityConfig) (m : ℕ)
    (h : cfg.pilot + cfg.proven + cfg.scaled < m) :
    getMaturityMultiplier m cfg =
      min ((13 / 10) * (1 + cfg.learningRate) ^
        (m - (cfg.pilot + cfg.proven + cfg.scaled))) (9 / 5) := by
  rw [getMaturityMultiplier, if_neg (by omega), if_neg (by omega), if_neg (by omega)]

/-- **C5.** For a maturity configuration with (integer, hence non-negative)
stage durations and `learningRate ≥ 0` and any month `≥ 1`:
the multiplier is `0.3` through the pilot boundary, `0.7` through the proven
boundary, `1.0` through the scaled boundary, and
`min (1.3·(1+learningRate)^(month − boundary)) 1.8` beyond it; it never
exceeds `1.8`; within the Optimized stage it is non-decreasing in the month,
and strictly increasing below the cap when `learningRate > 0`. -/
theorem maturityMultiplier_stages (cfg : MaturityConfig) (hlr : 0 ≤ cfg.learningRate)
    (month : ℕ) (hm : 1 ≤ month) :
    (month ≤ cfg.pilot → getMaturityMultiplier month cfg = 3 / 10) ∧
    (cfg.pilot < month → month ≤ cfg.pilot + cfg.proven →
      getMaturityMultiplier month cfg = 7 / 10) ∧
    (cfg.pilot + cfg.proven < month →
      month ≤ cfg.pilot + cfg.proven + cfg.scaled →
      getMaturityMultiplier month cfg = 1) ∧
    (cfg.pilot + cfg.proven + cfg.scaled < month →
      getMaturityMultiplier month cfg =
        min ((13 / 10) * (1 + cfg.learningRate) ^
          (month - (cfg.pilot + cfg.proven + cfg.scaled))) (9 / 5)) ∧
    getMaturityMultiplier month cfg ≤ 9 / 5 ∧
    (∀ m2 : ℕ, cfg.pilot + cfg.proven + cfg.scaled < month → month ≤ m2 →
      getMaturityMultiplier month cfg ≤ getMaturityMultiplier m2 cfg) ∧
    (0 < cfg.learningRate → ∀ m2 : ℕ,
      cfg.pilot + cfg.proven + cfg.scaled < month → month < m2 →
      getMaturityMultiplier m2 cfg < 9 / 5 →
      getMaturityMultiplier month cfg < getMaturityMultiplier m2 cfg) := by
  have hx : (0 : ℚ) ≤ 1 + cfg.learningRate := by linarith
  have hx1 : (1 : ℚ) ≤ 1 + cfg.learningRate := by linarith
  refine ⟨?_, ?_, ?_, ?_, ?_, ?_, ?_⟩
  · intro h
    simp [getMaturityMultiplier, h]
  · intro h1 h2
    rw [getMaturityMultiplier, if_neg (by omega), if_pos h2]
  · intro h1 h2
    rw [getMaturityMultiplier, if_neg (by omega), if_neg (by omega), if_pos h2]
  · intro h
    exact getMaturityMultiplier_optimized cfg month h
  · rw [getMaturityMultiplier]
    split
    · norm_num
    · split
      · norm_num
      · split
        · norm_num
        · exact min_le_right _ _
  · intro m2 hB hle
    rw [getMaturityMultiplier_optimized cfg month hB,
      getMaturityMultiplier_optimized cfg m2 (by omega)]
    refine min_le_min (mul_le_mul_of_nonneg_left ?_ (by norm_num)) le_rfl
    exact pow_le_pow_right₀ hx1 (Nat.sub_le_sub_right hle _)
  · intro hpos m2 hB hlt hcap
    have hB2 : cfg.pilot + cfg.proven + cfg.scaled < m2 := by omega
    rw [getMaturityMultiplier_optimized cfg m2 hB2] at hcap
    rw [getMaturityMultiplier_optimized cfg month hB,
      getMaturityMultiplier_optimized cfg m2 hB2]
    have hxlt : (1 : ℚ) < 1 + cfg.learningRate := by linarith
    have hplt : (1 + cfg.learningRate) ^ (month - (cfg.pilot + cfg.proven + cfg.scaled)) <
        (1 + cfg.learningRate) ^ (m2 - (cfg.pilot + cfg.proven + cfg.scaled)) :=
      pow_lt_pow_right₀ hxlt (by omega)
    have hclt : (13 / 10 : ℚ) * (1 + cfg.learningRate) ^ (month - (cfg.pilot + cfg.proven + cfg.scaled)) <
        (13 / 10 : ℚ) * (1 + cfg.learningRate) ^ (m2 - (cfg.pilot + cfg.proven + cfg.scaled)) := by
      have := mul_lt_mul_of_pos_left hplt (by norm_num : (0 : ℚ) < 13 / 10)
      linarith
    have hc2 : (13 / 10 : ℚ) * (1 + cfg.learningRate) ^ (m2 - (cfg.pilot + cfg.proven + cfg.scaled)) < 9 / 5 := by
      by_contra hcon
      push_neg at hcon
      rw [min_eq_right hcon] at hcap
      exact lt_irrefl _ hcap
    calc min ((13 / 10 : ℚ) * (1 + cfg.learningRate) ^ (month - (cfg.pilot + cfg.proven + cfg.scaled))) (9 / 5)
        ≤ (13 / 10 : ℚ) * (1 + cfg.learningRate) ^ (month - (cfg.pilot + cfg.proven + cfg.scaled)) := min_le_left _ _
      _ < (13 / 10 : ℚ) * (1 + cfg.learningRate) ^ (m2 - (cfg.pilot + cfg.proven + cfg.scaled)) := hclt
      _ = min ((13 / 10 : ℚ) * (1 + cfg.learningRate) ^ (m2 - (cfg.pilot + cfg.proven + cfg.scaled))) (9 / 5) :=
          (min_eq_left (le_of_lt hc2)).symm

/-- Witness for C5 at the healthcare-like configuration
`{pilot := 4, proven := 8, scaled := 12, learningRate := 3/200}`, month 5. -/
theorem maturityMultiplier_stages_witness :
    (0 : ℚ) ≤ (3 / 200 : ℚ) ∧ 1 ≤ 5 ∧
    getMaturityMultiplier 5
      { pilot := 4, proven := 8, scaled := 12, learningRate := 3 / 200 } = 7 / 10 :=
  ⟨by norm_num, by norm_num,
    (maturityMultiplier_stages
      { pilot := 4, proven := 8, scaled := 12, learningRate := 3 / 200 }
      (by norm_num) 5 (by norm_num)).2.1 (by norm_num) (by norm_num)⟩

end Aura

/-! ### C3, C4: payback period -/

namespace Aura

theorem paybackAux_eq_none_iff :
    ∀ (l : List MonthlyProjection) (prev : MonthlyProjection),
      paybackAux prev l = none ↔ ∀ q ∈ l, q.cumulativeNet < 0
  | [], prev => by simp [paybackAux]
  | c :: rest, prev => by
    rw [paybackAux]
    by_cases h : 0 ≤ c.cumulativeNet
    · rw [if_pos h]
      constructor
      · intro hcontra
        by_cases hvc : c.cumulativeNet - prev.cumulativeNet ≠ 0 <;>
          simp [hvc] at hcontra
      · intro hall
        exact absurd (hall c (List.mem_cons_self c rest)) (not_lt.mpr h)
    · rw [if_neg h, paybackAux_eq_none_iff rest c]
      have hc : c.cumulativeNet < 0 := lt_of_not_le h
      simp only [List.mem_cons, forall_eq_or_imp]
      tauto

/-- **C3.** For a non-empty projection list, `calculatePaybackPeriod` is
non-computable (`none`) iff no month's `cumulativeNet` is `≥ 0`; whenever some
month's `cumulativeNet` is `≥ 0`, it returns a number. -/
theorem paybackPeriod_none_iff (projections : List MonthlyProjection)
    (hne : projections ≠ []) :
    (calculatePaybackPeriod projections = none ↔
      ∀ q ∈ projections, q.cumulativeNet < 0) ∧
    ((∃ q ∈ projections, 0 ≤ q.cumulativeNet) →
      ∃ x, calculatePaybackPeriod projections = some x) := by
  have hiff : calculatePaybackPeriod projections = none ↔
      ∀ q ∈ projections, q.cumulativeNet < 0 := by
    match projections with
    | [] => simp [calculatePaybackPeriod]
    | p :: rest =>
      rw [calculatePaybackPeriod]
      by_cases h : 0 ≤ p.cumulativeNet
      · rw [if_pos h]
        constructor
        · intro hcontra
          cases hcontra
        · intro hall
          exact absurd (hall p (List.mem_cons_self p rest)) (not_lt.mpr h)
      · rw [if_neg h, paybackAux_eq_none_iff rest p]
        have hp : p.cumulativeNet < 0 := lt_of_not_le h
        simp only [List.mem_cons, forall_eq_or_imp]
        tauto
  refine ⟨hiff, fun ⟨q, hq, hq0⟩ => ?_⟩
  rw [← Option.ne_none_iff_exists']
  intro hnone
  exact absurd hq0 (not_le.mpr (hiff.mp hnone q hq))

/-- Witness for C3 on a two-month list whose cumulative net stays negative. -/
theorem paybackPeriod_none_iff_witness :
    [mkCumRow 1 (-100), mkCumRow 2 (-50)] ≠ ([] : List MonthlyProjection) ∧
    (calculatePaybackPeriod [mkCumRow 1 (-100), mkCumRow 2 (-50)] = none ↔
      ∀ q ∈ [mkCumRow 1 (-100), mkCumRow 2 (-50)], q.cumulativeNet < 0) :=
  ⟨by simp, (paybackPeriod_none_iff [mkCumRow 1 (-100), mkCumRow 2 (-50)] (by simp)).1⟩

theorem paybackAux_spec :
    ∀ (l : List MonthlyProjection) (prev : MonthlyProjection) (j : ℕ) (hj : j < l.length),
      prev.cumulativeNet < 0 →
      0 ≤ (l.get ⟨j, hj⟩).cumulativeNet →
      (∀ i (hi : i < l.length), i < j → (l.get ⟨i, hi⟩).cumulativeNet < 0) →
      paybackAux prev l =
        some (interpPayback ((prev :: l).get ⟨j, by simpa using Nat.lt_succ_of_lt hj⟩)
          (l.get ⟨j, hj⟩))
  | [], prev, j, hj => by cases hj
  | c :: rest, prev, j, hj => by
    intro hprev h0 hneg
    match j with
    | 0 =>
      have h0c : 0 ≤ c.cumulativeNet := by simpa using h0
      have hvc : c.cumulativeNet - prev.cumulativeNet ≠ 0 := by
        intro hcon
        linarith
      rw [paybackAux, if_pos h0c, if_pos hvc]
      simp [interpPayback]
    | j' + 1 =>
      have hc : c.cumulativeNet < 0 := by
        have := hneg 0 (by omega) (by omega)
        simpa using this
      rw [paybackAux, if_neg (not_le.mpr hc)]
      have hj' : j' < rest.length := by simpa using hj
      have h0' : 0 ≤ (rest.get ⟨j', hj'⟩).cumulativeNet := by simpa using h0
      have hneg' : ∀ i (hi : i < rest.length), i < j' →
          (rest.get ⟨i, hi⟩).cumulativeNet < 0 := by
        intro i hi hij
        have := hneg (i + 1) (by omega) (by omega)
        simpa using this
      rw [paybackAux_spec rest c j' hj' hc h0' hneg']
      rfl

/-- **C4.** If index `j` is the first whose `cumulativeNet` is `≥ 0`, then
`calculatePaybackPeriod` returns that entry's month when `j = 0`, and
otherwise `prevMonth + (-prevCumulative)/(currCumulative - prevCumulative)`
over entries `j-1` and `j`. -/
theorem paybackPeriod_interpolation (projections : List MonthlyProjection)
    (j : ℕ) (hj : j < projections.length)
    (h0 : 0 ≤ (projections.get ⟨j, hj⟩).cumulativeNet)
    (hneg : ∀ i (hi : i < projections.length), i < j →
      (projections.get ⟨i, hi⟩).cumulativeNet < 0) :
    (j = 0 → calculatePaybackPeriod projections =
      some ((projections.get ⟨j, hj⟩).month : ℚ)) ∧
    (1 ≤ j → calculatePaybackPeriod projections =
      some (((projections.get ⟨j - 1, by omega⟩).month : ℚ) +
        (-(projections.get ⟨j - 1, by omega⟩).cumulativeNet) /
        ((projections.get ⟨j, hj⟩).cumulativeNet -
          (projections.get ⟨j - 1, by omega⟩).cumulativeNet))) := by
  match projections with
  | [] => cases hj
  | p :: rest =>
    constructor
    · intro hj0
      subst hj0
      rw [calculatePaybackPeriod, if_pos (by simpa using h0)]
      rfl
    · intro hj1
      have hp : p.cumulativeNet < 0 := by
        have := hneg 0 (by omega) (by omega)
        simpa using this
      rw [calculatePaybackPeriod, if_neg (not_le.mpr hp)]
      match j, hj1 with
      | j' + 1, _ =>
        have hj' : j' < rest.length := by simpa using hj
        have h0' : 0 ≤ (rest.get ⟨j', hj'⟩).cumulativeNet := by simpa using h0
        have hneg' : ∀ i (hi : i < rest.length), i < j' →
            (rest.get ⟨i, hi⟩).cumulativeNet < 0 := by
          intro i hi hij
          have := hneg (i + 1) (by omega) (by omega)
          simpa using this
        rw [paybackAux_spec rest p j' hj' hp h0' hneg']
        rfl

/-- Witness for C4: cumulative sequence `[-1000 (month 1), +1000 (month 2)]`
gives payback `1.5`. -/
theorem paybackPeriod_interpolation_witness :
    calculatePaybackPeriod [mkCumRow 1 (-1000), mkCumRow 2 1000] = some (3 / 2) := by
  have h := (paybackPeriod_interpolation [mkCumRow 1 (-1000), mkCumRow 2 1000]
    1 (by simp)
    (by simp [mkCumRow])
    (by
      intro i hi hlt
      have hi0 : i = 0 := by omega
      subst hi0
      norm_num [mkCumRow])).2 (by omega)
  rw [h]
  norm_num [mkCumRow]

end Aura

/-! ### projLoop column lemmas, C1 and C6 -/

namespace Aura

theorem projLoop_length (bD bT bQ bL bO ra ic mc : ℚ) (mat : MaturityConfig) :
    ∀ (ms : List ℕ) (cum : ℚ),
      (projLoop bD bT bQ bL bO ra ic mc mat ms cum).length = ms.length
  | [], _ => rfl
  | m :: ms, cum => by
    simp only [projLoop, List.length_cons]
    rw [projLoop_length bD bT bQ bL bO ra ic mc mat ms]

theorem projLoop_map_month (bD bT bQ bL bO ra ic mc : ℚ) (mat : MaturityConfig) :
    ∀ (ms : List ℕ) (cum : ℚ),
      (projLoop bD bT bQ bL bO ra ic mc mat ms cum).map (·.month) = ms
  | [], _ => rfl
  | m :: ms, cum => by
    simp only [projLoop, List.map_cons]
    rw [projLoop_map_month bD bT bQ bL bO ra ic mc mat ms]

theorem projLoop_map_cost (bD bT bQ bL bO ra ic mc : ℚ) (mat : MaturityConfig) :
    ∀ (ms : List ℕ) (cum : ℚ),
      (projLoop bD bT bQ bL bO ra ic mc mat ms cum).map (·.cost) =
        ms.map (fun m => if m = 1 then ic + mc else mc)
  | [], _ => rfl
  | m :: ms, cum => by
    simp only [projLoop, List.map_cons]
    rw [projLoop_map_cost bD bT bQ bL bO ra ic mc mat ms]

theorem projLoop_map_riskAdjusted (bD bT bQ bL bO ra ic mc : ℚ) (mat : MaturityConfig) :
    ∀ (ms : List ℕ) (cum : ℚ),
      (projLoop bD bT bQ bL bO ra ic mc mat ms cum).map (·.riskAdjustedValue) =
        ms.map (fun m => (bD + bT + bQ + bL + bO) * getMaturityMultiplier m mat * ra)
  | [], _ => rfl
  | m :: ms, cum => by
    simp only [projLoop, List.map_cons]
    rw [projLoop_map_riskAdjusted bD bT bQ bL bO ra ic mc mat ms]

theorem projLoop_map_netValue (bD bT bQ bL bO ra ic mc : ℚ) (mat : MaturityConfig) :
    ∀ (ms : List ℕ) (cum : ℚ),
      (projLoop bD bT bQ bL bO ra ic mc mat ms cum).map (·.netValue) =
        ms.map (fun m => (bD + bT + bQ + bL + bO) * getMaturityMultiplier m mat * ra -
          (if m = 1 then ic + mc else mc))
  | [], _ => rfl
  | m :: ms, cum => by
    simp only [projLoop, List.map_cons]
    rw [projLoop_map_netValue bD bT bQ bL bO ra ic mc mat ms]

theorem projLoop_cumulative (bD bT bQ bL bO ra ic mc : ℚ) (mat : MaturityConfig) :
    ∀ (ms : List ℕ) (cum : ℚ) (i : ℕ)
      (hi : i < (projLoop bD bT bQ bL bO ra ic mc mat ms cum).length),
      ((projLoop bD bT bQ bL bO ra ic mc mat ms cum).get ⟨i, hi⟩).cumulativeNet =
        cum + (((projLoop bD bT bQ bL bO ra ic mc mat ms cum).take (i + 1)).map
          (·.netValue)).sum
  | [], cum, i, hi => by cases hi
  | m :: ms, cum, 0, hi => by
    simp [projLoop]
  | m :: ms, cum, i + 1, hi => by
    have hi' : i < (projLoop bD bT bQ bL bO ra ic mc mat ms
        (cum + ((bD + bT + bQ + bL + bO) * getMaturityMultiplier m mat * ra -
          (if m = 1 then ic + mc else mc)))).length := by
      simp only [projLoop, List.length_cons] at hi
      omega
    have ih := projLoop_cumulative bD bT bQ bL bO ra ic mc mat ms
      (cum + ((bD + bT + bQ + bL + bO) * getMaturityMultiplier m mat * ra -
        (if m = 1 then ic + mc else mc))) i hi'
    simp only [projLoop, List.get_cons_succ, List.take_succ_cons, List.map_cons,
      List.sum_cons] at ih ⊢
    rw [ih]
    ring

theorem npv_at_zero (projections : List MonthlyProjection) :
    calculateNPV projections 0 = (projections.map (·.netValue)).sum := by
  rw [calculateNPV, foldlAdd_eq_sum, zero_add]
  congr 1
  apply List.map_congr_left
  intro p hp
  norm_num

theorem get_field_of_map_eq {α β : Type} (f : α → β) (l : List α) (ms : List β)
    (h : l.map f = ms) (i : ℕ) (hi : i < l.length) (hi' : i < ms.length) :
    f (l.get ⟨i, hi⟩) = ms.get ⟨i, hi'⟩ := by
  subst h
  simp [List.get_eq_getElem]

theorem monthlyProjections_eq (project : Project) :
    calculateMonthlyProjections project =
      projLoop (calculateDLA project.tasks) (calculateTA project.throughput)
        (calculateDQP project.tasks) (calculateLV project.latency)
        (calculateOLV project.optionality)
        (1 - calculateCompositeRisk project.risks)
        (initialCostOf project.costs) (monthlyCostOf project.costs)
        project.maturity (List.range' 1 project.duration)
        (-(initialCostOf project.costs)) := rfl

theorem monthlyProjections_length (project : Project) :
    (calculateMonthlyProjections project).length = project.duration := by
  rw [monthlyProjections_eq, projLoop_length]
  simp

theorem monthlyProjections_map_month (project : Project) :
    (calculateMonthlyProjections project).map (·.month) =
      List.range' 1 project.duration := by
  rw [monthlyProjections_eq]
  exact projLoop_map_month _ _ _ _ _ _ _ _ _ _ _

theorem monthlyProjections_map_cost (project : Project) :
    (calculateMonthlyProjections project).map (·.cost) =
      (List.range' 1 project.duration).map
        (fun m => if m = 1 then initialCostOf project.costs + monthlyCostOf project.costs
          else monthlyCostOf project.costs) := by
  rw [monthlyProjections_eq]
  exact projLoop_map_cost _ _ _ _ _ _ _ _ _ _ _

theorem monthlyProjections_map_riskAdjusted (project : Project) :
    (calculateMonthlyProjections project).map (·.riskAdjustedValue) =
      (List.range' 1 project.duration).map
        (fun m => (calculateDLA project.tasks + calculateTA project.throughput +
          calculateDQP project.tasks + calculateLV project.latency +
          calculateOLV project.optionality) * getMaturityMultiplier m project.maturity *
          (1 - calculateCompositeRisk project.risks)) := by
  rw [monthlyProjections_eq]
  exact projLoop_map_riskAdjusted _ _ _ _ _ _ _ _ _ _ _

theorem monthlyProjections_cumulative (project : Project) (i : ℕ)
    (hi : i < (calculateMonthlyProjections project).length) :
    ((calculateMonthlyProjections project).get ⟨i, hi⟩).cumulativeNet =
      -(initialCostOf project.costs) +
        (((calculateMonthlyProjections project).take (i + 1)).map (·.netValue)).sum :=
  projLoop_cumulative _ _ _ _ _ _ _ _ _ _ _ i hi

/-- **C1.** For a project with duration `≥ 1`: the projection list has one row
per month `1..duration`; the first month's cost is the one-time cost plus the
recurring monthly cost while every later month's cost is the recurring cost
only; each row's `cumulativeNet` equals the seed `-(one-time cost)` plus the
sum of `netValue` over months `1..m` (so the one-time cost enters the
cumulative series both through the seed and through month 1's `netValue`);
and NPV at rate 0 is the plain sum of per-month `netValue`, which subtracts
the one-time cost once. -/
theorem monthlyProjections_shape (project : Project) (hd : 1 ≤ project.duration) :
    (calculateMonthlyProjections project).length = project.duration ∧
    (∀ i (hi : i < (calculateMonthlyProjections project).length),
      ((calculateMonthlyProjections project).get ⟨i, hi⟩).month = i + 1 ∧
      ((calculateMonthlyProjections project).get ⟨i, hi⟩).cost =
        (if i = 0 then initialCostOf project.costs + monthlyCostOf project.costs
         else monthlyCostOf project.costs) ∧
      ((calculateMonthlyProjections project).get ⟨i, hi⟩).cumulativeNet =
        -(initialCostOf project.costs) +
          (((calculateMonthlyProjections project).take (i + 1)).map (·.netValue)).sum) ∧
    calculateNPV (calculateMonthlyProjections project) 0 =
      ((calculateMonthlyProjections project).map (·.netValue)).sum := by
  have hlen : (calculateMonthlyProjections project).length = project.duration :=
    monthlyProjections_length project
  refine ⟨hlen, fun i hi => ⟨?_, ?_, monthlyProjections_cumulative project i hi⟩,
    npv_at_zero _⟩
  · have hi' : i < (List.range' 1 project.duration).length := by
      simp only [List.length_range']
      omega
    have hget := get_field_of_map_eq (·.month) (calculateMonthlyProjections project)
      (List.range' 1 project.duration) (monthlyProjections_map_month project) i hi hi'
    have hr : (List.range' 1 project.duration).get ⟨i, hi'⟩ = 1 + i := by
      simp [List.get_eq_getElem]
    simp only [hget, hr]
    omega
  · have hi' : i < ((List.range' 1 project.duration).map
        (fun m => if m = 1 then initialCostOf project.costs + monthlyCostOf project.costs
          else monthlyCostOf project.costs)).length := by
      simp only [List.length_map, List.length_range']
      omega
    have hget := get_field_of_map_eq (·.cost) (calculateMonthlyProjections project)
      _ (monthlyProjections_map_cost project) i hi hi'
    have hi'' : i < (List.range' 1 project.duration).length := by
      simp only [List.length_range']
      omega
    have hr : ((List.range' 1 project.duration).map
        (fun m => if m = 1 then initialCostOf project.costs + monthlyCostOf project.costs
          else monthlyCostOf project.costs)).get ⟨i, hi'⟩ =
        (fun m => if m = 1 then initialCostOf project.costs + monthlyCostOf project.costs
          else monthlyCostOf project.costs) ((List.range' 1 project.duration).get ⟨i, hi''⟩) := by
      simp [List.get_eq_getElem]
    have hr2 : (List.range' 1 project.duration).get ⟨i, hi''⟩ = 1 + i := by
      simp [List.get_eq_getElem]
    simp only [hget, hr, hr2]
    rcases Nat.eq_zero_or_pos i with h0 | hpos
    · subst h0
      norm_num
    · rw [if_neg (by omega), if_neg (by omega)]

/-- Witness for C1 at a concrete one-month project. -/
theorem monthlyProjections_shape_witness :
    1 ≤ wProject.duration ∧
    (calculateMonthlyProjections wProject).length = wProject.duration :=
  ⟨by decide, (monthlyProjections_shape wProject (by decide)).1⟩

/-- **C6 counterexample.** `cexNpvFlows` has a net-positive later value
(month 2's `netValue` is `1 > 0`), yet raising the annual discount rate from
`0` to `12` strictly *increases* `calculateNPV` (from `-99` to `-49.75`):
the claim's monotonicity statement is false for mixed-sign series. -/
theorem npv_rate_monotonicity_counterexample :
    (0 : ℚ) < (mkFlowRow 2 1).netValue ∧ 2 ≤ (mkFlowRow 2 1).month ∧
    (0 : ℚ) < 12 ∧
    calculateNPV cexNpvFlows 0 < calculateNPV cexNpvFlows 12 := by
  refine ⟨by norm_num [mkFlowRow], by norm_num [mkFlowRow], by norm_num, ?_⟩
  norm_num [calculateNPV, cexNpvFlows, mkFlowRow]

/-- **C6 (amended).** `calculateNPV(flows, 0)` is the plain sum of the
`netValue` entries — unconditionally, for every (also mixed-sign) flow list;
and when every `netValue` is non-negative with some month `≥ 1` contributing a
strictly positive value, increasing the annual discount rate (within
`0 ≤ r1 < r2`) strictly decreases `calculateNPV`. -/
theorem npv_zero_sum_and_rate_antitone (projections : List MonthlyProjection)
    (r1 r2 : ℚ) :
    calculateNPV projections 0 = (projections.map (·.netValue)).sum ∧
    ((∀ q ∈ projections, 0 ≤ q.netValue) →
      (∃ q ∈ projections, 0 < q.netValue ∧ 1 ≤ q.month) →
      0 ≤ r1 → r1 < r2 →
      calculateNPV projections r2 < calculateNPV projections r1) := by
  refine ⟨npv_at_zero _, ?_⟩
  intro hall hpos h1 h12
  have hx1 : (0 : ℚ) < 1 + r1 / 12 := by linarith
  have hx12 : 1 + r1 / 12 < 1 + r2 / 12 := by linarith
  rw [calculateNPV, calculateNPV, foldlAdd_eq_sum, foldlAdd_eq_sum, zero_add, zero_add]
  obtain ⟨q₀, hq₀, hq₀pos, hq₀m⟩ := hpos
  apply sum_map_lt_sum_map _ _ projections
  · intro q hq
    have hnet := hall q hq
    have hp1 : (0 : ℚ) < (1 + r1 / 12) ^ q.month := pow_pos hx1 q.month
    have hple : (1 + r1 / 12) ^ q.month ≤ (1 + r2 / 12) ^ q.month :=
      pow_le_pow_left₀ (le_of_lt hx1) (le_of_lt hx12) q.month
    gcongr
  · exact hq₀
  · have hp1 : (0 : ℚ) < (1 + r1 / 12) ^ q₀.month := pow_pos hx1 q₀.month
    have hplt : (1 + r1 / 12) ^ q₀.month < (1 + r2 / 12) ^ q₀.month :=
      pow_lt_pow_left₀ hx12 (le_of_lt hx1) (by omega)
    gcongr

/-- Witness for the amended C6: the unconditional zero-rate conjunct is taken
at the mixed-sign flows `cexNpvFlows`, and the antitonicity conjunct (whose
hypotheses are discharged concretely) at the single positive flow `+1` in
month 1, rates `0 < 12`. -/
theorem npv_zero_sum_and_rate_antitone_witness :
    calculateNPV cexNpvFlows 0 = (cexNpvFlows.map (·.netValue)).sum ∧
    calculateNPV [mkFlowRow 1 1] 0 = ([mkFlowRow 1 1].map (·.netValue)).sum ∧
    calculateNPV [mkFlowRow 1 1] 12 < calculateNPV [mkFlowRow 1 1] 0 :=
  ⟨(npv_zero_sum_and_rate_antitone cexNpvFlows 0 12).1,
   (npv_zero_sum_and_rate_antitone [mkFlowRow 1 1] 0 12).1,
   (npv_zero_sum_and_rate_antitone [mkFlowRow 1 1] 0 12).2
    (by
      intro q hq
      simp only [List.mem_singleton] at hq
      subst hq
      norm_num [mkFlowRow])
    ⟨mkFlowRow 1 1, by simp, by norm_num [mkFlowRow], by norm_num [mkFlowRow]⟩
    (by norm_num) (by norm_num)⟩

end Aura

/-! ### C2: IRR termination characterization -/

namespace Aura

theorem irrIter_shift (cashFlows : List ℚ) (r : ℚ) :
    ∀ k, irrIter cashFlows (irrNext cashFlows r) k = irrIter cashFlows r (k + 1)
  | 0 => rfl
  | k + 1 => by
    show irrNext cashFlows (irrIter cashFlows (irrNext cashFlows r) k) = _
    rw [irrIter_shift cashFlows r k]
    rfl

theorem irrLoop_eq_none_iff (cashFlows : List ℚ) (tolerance : ℚ) :
    ∀ (fuel : ℕ) (r : ℚ),
      irrLoop cashFlows tolerance r fuel = none ↔
        ((∃ k, k < fuel ∧ irrDerivFail cashFlows tolerance (irrIter cashFlows r k) ∧
            ∀ j, j < k → ¬ irrStop cashFlows tolerance (irrIter cashFlows r j)) ∨
         (∀ k, k < fuel → ¬ irrStop cashFlows tolerance (irrIter cashFlows r k)))
  | 0, r => by
    constructor
    · intro _
      exact Or.inr (fun k hk => absurd hk (Nat.not_lt_zero k))
    · intro _
      rfl
  | fuel + 1, r => by
    rw [irrLoop]
    by_cases hd : |irrDeriv cashFlows r| < tolerance
    · rw [if_pos hd]
      refine iff_of_true rfl (Or.inl ⟨0, Nat.succ_pos fuel, hd, fun j hj => absurd hj (Nat.not_lt_zero j)⟩)
    · rw [if_neg hd]
      by_cases hc : |irrNext cashFlows r - r| < tolerance
      · rw [if_pos hc]
        have hstop : irrStop cashFlows tolerance r := Or.inr ⟨not_lt.mp hd, hc⟩
        refine iff_of_false (by simp) ?_
        rintro (⟨k, hk, hfail, hprev⟩ | hall)
        · match k with
          | 0 => exact hd hfail
          | k' + 1 => exact hprev 0 (Nat.succ_pos k') hstop
        · exact hall 0 (Nat.succ_pos fuel) hstop
      · rw [if_neg hc]
        have hstop : ¬ irrStop cashFlows tolerance r := by
          rintro (h | h)
          · exact hd h
          · exact hc h.2
        have hshift := irrIter_shift cashFlows r
        rw [irrLoop_eq_none_iff cashFlows tolerance fuel (irrNext cashFlows r)]
        constructor
        · rintro (⟨k, hk, hfail, hprev⟩ | hall)
          · rw [hshift k] at hfail
            refine Or.inl ⟨k + 1, by omega, hfail, fun j hj => ?_⟩
            match j with
            | 0 => exact hstop
            | j' + 1 =>
              rw [← hshift j']
              exact hprev j' (by omega)
          · refine Or.inr (fun k hk => ?_)
            match k with
            | 0 => exact hstop
            | k' + 1 =>
              rw [← hshift k']
              exact hall k' (by omega)
        · rintro (⟨k, hk, hfail, hprev⟩ | hall)
          · match k with
            | 0 => exact absurd hfail hd
            | k' + 1 =>
              refine Or.inl ⟨k', by omega, ?_, fun j hj => ?_⟩
              · rw [← hshift k'] at hfail
                exact hfail
              · rw [hshift j]
                exact hprev (j + 1) (by omega)
          · refine Or.inr (fun k hk => ?_)
            rw [hshift k]
            exact hall (k + 1) (by omega)

/-- **C2.** `calculateIRR` (with the default 100-iteration budget and `1e-6`
tolerance) returns not-computable (`none`) — it is a total function, so never
an exception — in exactly these cases: (i) all net values share one sign;
(ii) at some visited Newton-Raphson step (starting from `r₀ = 0.1/12`) the
NPV-derivative magnitude falls below the tolerance, no earlier step having
exited; (iii) the 100-step budget runs out with no step exiting.  In every
other case it returns a number. -/
theorem calculateIRR_none_iff (projections : List MonthlyProjection) :
    calculateIRR projections 100 (1 / 1000000) = none ↔
      (irrSameSign (projections.map (·.netValue)) ∨
       (∃ k, k < 100 ∧
          irrDerivFail (projections.map (·.netValue)) (1 / 1000000)
            (irrIter (projections.map (·.netValue)) (1 / 10 / 12) k) ∧
          ∀ j, j < k → ¬ irrStop (projections.map (·.netValue)) (1 / 1000000)
            (irrIter (projections.map (·.netValue)) (1 / 10 / 12) j)) ∨
       (∀ k, k < 100 → ¬ irrStop (projections.map (·.netValue)) (1 / 1000000)
          (irrIter (projections.map (·.netValue)) (1 / 10 / 12) k))) := by
  simp only [calculateIRR]
  have hsame : (List.all (projections.map (·.netValue)) (fun cf => decide (0 ≤ cf)) ||
      List.all (projections.map (·.netValue)) (fun cf => decide (cf ≤ 0))) = true ↔
      irrSameSign (projections.map (·.netValue)) := by
    rw [Bool.or_eq_true, List.all_eq_true, List.all_eq_true]
    simp only [decide_eq_true_eq]
    rfl
  by_cases hb : (List.all (projections.map (·.netValue)) (fun cf => decide (0 ≤ cf)) ||
      List.all (projections.map (·.netValue)) (fun cf => decide (cf ≤ 0))) = true
  · rw [if_pos hb]
    exact iff_of_true rfl (Or.inl (hsame.mp hb))
  · rw [if_neg hb]
    have hnot : ¬ irrSameSign (projections.map (·.netValue)) := fun h => hb (hsame.mpr h)
    rw [irrLoop_eq_none_iff (projections.map (·.netValue)) (1 / 1000000) 100 (1 / 10 / 12)]
    constructor
    · rintro (h | h)
      · exact Or.inr (Or.inl h)
      · exact Or.inr (Or.inr h)
    · rintro (h | h | h)
      · exact absurd h hnot
      · exact Or.inl h
      · exact Or.inr h

end Aura

/-! ### C7, C9, C10: Monte Carlo and sensitivity wrappers -/

namespace Aura

theorem mcLoop_length (g : ℕ → ℚ) (project : Project) :
    ∀ (n k : ℕ), ((mcLoop g project n k).1).length = n
  | 0, _ => rfl
  | n + 1, k => by
    simp only [mcLoop, List.length_cons]
    rw [mcLoop_length g project n]

theorem mcLoop_caller (g : ℕ → ℚ) (project : Project) :
    ∀ (n k : ℕ), (mcLoop g project n k).2 = project
  | 0, _ => rfl
  | n + 1, k => by
    simp only [mcLoop]
    rw [mcLoop_caller g project n]

theorem sensLoop_caller (project : Project) (parameter : String) :
    ∀ (variations : List ℚ), (sensLoop project parameter variations).2 = project
  | [] => rfl
  | m :: ms => by
    simp only [sensLoop]
    rw [sensLoop_caller project parameter ms]

theorem getPercentile_le_getPercentile (s : List ℚ) (hs : s.Sorted (· ≤ ·))
    (p q : ℕ) (hpq : p ≤ q) (hq : s.length * q / 100 < s.length) :
    getPercentile s p ≤ getPercentile s q := by
  have hidx : s.length * p / 100 ≤ s.length * q / 100 :=
    Nat.div_le_div_right (Nat.mul_le_mul_left s.length hpq)
  have hp : s.length * p / 100 < s.length := lt_of_le_of_lt hidx hq
  rw [getPercentile, getPercentile, List.get?_eq_get hp, List.get?_eq_get hq]
  exact hs.rel_get_of_le hidx

/-- **C7.** For any project, any iteration count `≥ 1` and any stream of
random draws, the Monte Carlo ROI percentiles satisfy `p10 ≤ p50 ≤ p90`
(nearest-rank indexing into the `≤`-sorted per-iteration ROI sample). -/
theorem monteCarlo_roi_percentiles_ordered (project : Project) (iterations : ℕ)
    (g : ℕ → ℚ) (h : 1 ≤ iterations) :
    (runMonteCarloSimulation project iterations g).roi.p10 ≤
      (runMonteCarloSimulation project iterations g).roi.p50 ∧
    (runMonteCarloSimulation project iterations g).roi.p50 ≤
      (runMonteCarloSimulation project iterations g).roi.p90 := by
  simp only [runMonteCarloSimulation, runMonteCarloWithCaller, mcAggregate]
  have hsorted : (List.insertionSort (· ≤ ·)
      (((mcLoop g project iterations 0).1).map (·.roi))).Sorted (· ≤ ·) :=
    List.sorted_insertionSort _ _
  have hslen : (List.insertionSort (· ≤ ·)
      (((mcLoop g project iterations 0).1).map (·.roi))).length = iterations := by
    rw [List.length_insertionSort, List.length_map, mcLoop_length]
  have h90 : (List.insertionSort (· ≤ ·)
      (((mcLoop g project iterations 0).1).map (·.roi))).length * 90 / 100 <
      (List.insertionSort (· ≤ ·)
        (((mcLoop g project iterations 0).1).map (·.roi))).length := by
    rw [hslen]
    omega
  have h50 : (List.insertionSort (· ≤ ·)
      (((mcLoop g project iterations 0).1).map (·.roi))).length * 50 / 100 <
      (List.insertionSort (· ≤ ·)
        (((mcLoop g project iterations 0).1).map (·.roi))).length := by
    rw [hslen]
    omega
  exact ⟨getPercentile_le_getPercentile _ hsorted 10 50 (by norm_num) h50,
    getPercentile_le_getPercentile _ hsorted 50 90 (by norm_num) h90⟩

/-- Witness for C7 at the concrete project `wProject`, one iteration, zero
random stream. -/
theorem monteCarlo_roi_percentiles_ordered_witness :
    (runMonteCarloSimulation wProject 1 (fun _ => 0)).roi.p10 ≤
      (runMonteCarloSimulation wProject 1 (fun _ => 0)).roi.p50 ∧
    (runMonteCarloSimulation wProject 1 (fun _ => 0)).roi.p50 ≤
      (runMonteCarloSimulation wProject 1 (fun _ => 0)).roi.p90 :=
  monteCarlo_roi_percentiles_ordered wProject 1 (fun _ => 0) (by norm_num)

/-- **C9.** Monte Carlo simulation and sensitivity analysis leave the
caller's project unchanged: every perturbation is applied to the per-iteration
/ per-multiplier deep copy, and the caller-visible project returned by the
state-passing forms is the input project itself. -/
theorem engine_preserves_caller_project (project : Project) (iterations : ℕ)
    (g : ℕ → ℚ) (parameter : String) (variations : List ℚ) :
    deepCopyProject project = project ∧
    (runMonteCarloWithCaller project iterations g).2 = project ∧
    (runSensitivityWithCaller project parameter variations).2 = project := by
  refine ⟨?_, ?_, sensLoop_caller project parameter variations⟩
  · have htasks : project.tasks.map deepCopyTask = project.tasks := by
      have hid : deepCopyTask = id := funext fun t => rfl
      rw [hid, List.map_id]
    simp only [deepCopyProject, htasks]
  · simp only [runMonteCarloWithCaller]
    exact mcLoop_caller g project iterations 0

/-- **C10.** If every Monte Carlo iteration yields a not-computable payback,
the aggregate reports `payback.mean = none` but `payback.p10/p50/p90 = 0`
(the percentile helper's fallback on the empty filtered sample), so the
percentile fields cannot distinguish an empty sample from a zero payback. -/
theorem monteCarlo_empty_payback_percentiles (project : Project) (iterations : ℕ)
    (g : ℕ → ℚ)
    (h : ∀ r ∈ (runMonteCarloSimulation project iterations g).distribution,
      r.payback = none) :
    (runMonteCarloSimulation project iterations g).payback.p10 = 0 ∧
    (runMonteCarloSimulation project iterations g).payback.p50 = 0 ∧
    (runMonteCarloSimulation project iterations g).payback.p90 = 0 ∧
    (runMonteCarloSimulation project iterations g).payback.mean = none := by
  simp only [runMonteCarloSimulation, runMonteCarloWithCaller, mcAggregate] at h ⊢
  have hnil : ((mcLoop g project iterations 0).1).filterMap (·.payback) = [] :=
    List.filterMap_eq_nil.mpr h
  rw [hnil]
  simp [getPercentile]

/-- Witness for C10: on `wProject` (no tasks, positive cost) every iteration's
payback is `none`, and the aggregate indeed reports zero percentiles with a
`none` mean. -/
theorem monteCarlo_empty_payback_percentiles_witness :
    (∀ r ∈ (runMonteCarloSimulation wProject 2 (fun _ => 0)).distribution,
      r.payback = none) ∧
    (runMonteCarloSimulation wProject 2 (fun _ => 0)).payback.p10 = 0 ∧
    (runMonteCarloSimulation wProject 2 (fun _ => 0)).payback.p50 = 0 ∧
    (runMonteCarloSimulation wProject 2 (fun _ => 0)).payback.p90 = 0 ∧
    (runMonteCarloSimulation wProject 2 (fun _ => 0)).payback.mean = none := by
  have hall : ∀ r ∈ (runMonteCarloSimulation wProject 2 (fun _ => 0)).distribution,
      r.payback = none := by with_unfolding_all decide
  have hres := monteCarlo_empty_payback_percentiles wProject 2 (fun _ => 0) hall
  exact ⟨hall, hres.1, hres.2.1, hres.2.2.1, hres.2.2.2⟩

end Aura

/-! ### C8: sensitivity analysis on accuracy -/

namespace Aura

theorem deepCopyProject_eq (p : Project) : deepCopyProject p = p := by
  have htasks : p.tasks.map deepCopyTask = p.tasks := by
    have hid : deepCopyTask = id := funext fun t => rfl
    rw [hid, List.map_id]
  simp only [deepCopyProject, htasks]

theorem applyAccuracy_eq (m : ℚ) (p : Project) :
    applyParameterVariation "accuracy" m p =
      { p with tasks := p.tasks.map (fun t =>
          { t with accuracy := min 1 (t.accuracy * m) }) } := by
  rw [applyParameterVariation, if_pos rfl]

theorem getMaturityMultiplier_nonneg (cfg : MaturityConfig) (m : ℕ)
    (hlr : -1 ≤ cfg.learningRate) : 0 ≤ getMaturityMultiplier m cfg := by
  rw [getMaturityMultiplier]
  split_ifs with h1 h2 h3
  · norm_num
  · norm_num
  · norm_num
  · exact le_min (mul_nonneg (by norm_num) (pow_nonneg (by linarith) _)) (by norm_num)

theorem riskAdjustment_nonneg (risks : RiskProfile)
    (h1 : risks.technical ≤ 1) (h2 : risks.adoption ≤ 1)
    (h3 : risks.regulatory ≤ 1) (h4 : risks.vendor ≤ 1) :
    0 ≤ 1 - calculateCompositeRisk risks := by
  rw [calculateCompositeRisk]
  linarith

theorem foldl_le_foldl {α : Type} (f g : ℚ → α → ℚ) :
    ∀ (l : List α), (∀ (a b : ℚ) (x : α), x ∈ l → a ≤ b → f a x ≤ g b x) →
      ∀ (a b : ℚ), a ≤ b → l.foldl f a ≤ l.foldl g b
  | [], _, a, b, hab => hab
  | x :: l, h, a, b, hab => by
    simp only [List.foldl_cons]
    exact foldl_le_foldl f g l
      (fun a' b' y hy => h a' b' y (List.mem_cons_of_mem _ hy)) _ _
      (h a b x (List.mem_cons_self x l) hab)

theorem calculateDLA_scaleAcc_mono (tasks : List Task) (m1 m2 : ℚ) (h12 : m1 ≤ m2)
    (H : ∀ t ∈ tasks, 0 ≤ t.hoursPerWeek ∧ 0 ≤ t.hourlyRate ∧
      0 ≤ t.accuracy ∧ t.accuracy ≤ 1 ∧ 0 ≤ t.oversightRate ∧ t.oversightRate ≤ 1 ∧
      0 ≤ t.volumePerWeek ∧ 0 ≤ t.errorCost) :
    calculateDLA (tasks.map (fun t => { t with accuracy := min 1 (t.accuracy * m1) })) ≤
    calculateDLA (tasks.map (fun t => { t with accuracy := min 1 (t.accuracy * m2) })) := by
  rw [calculateDLA, calculateDLA, List.foldl_map, List.foldl_map]
  apply foldl_le_foldl _ _ tasks _ 0 0 le_rfl
  intro a b t ht hab
  obtain ⟨hh, hr, hacc, _, _, hov1, _, _⟩ := H t ht
  dsimp only
  have hmin : min 1 (t.accuracy * m1) ≤ min 1 (t.accuracy * m2) :=
    min_le_min le_rfl (mul_le_mul_of_nonneg_left h12 hacc)
  have hcoeff : 0 ≤ t.hoursPerWeek * WEEKS_PER_MONTH * t.hourlyRate :=
    mul_nonneg (mul_nonneg hh (by norm_num [WEEKS_PER_MONTH])) hr
  have hov : (0 : ℚ) ≤ 1 - t.oversightRate := by linarith
  have := mul_le_mul_of_nonneg_left (mul_le_mul_of_nonneg_right hmin hov) hcoeff
  linarith

theorem calculateDQP_scaleAcc_mono (tasks : List Task) (m1 m2 : ℚ) (h12 : m1 ≤ m2)
    (H : ∀ t ∈ tasks, 0 ≤ t.hoursPerWeek ∧ 0 ≤ t.hourlyRate ∧
      0 ≤ t.accuracy ∧ t.accuracy ≤ 1 ∧ 0 ≤ t.oversightRate ∧ t.oversightRate ≤ 1 ∧
      0 ≤ t.volumePerWeek ∧ 0 ≤ t.errorCost) :
    calculateDQP (tasks.map (fun t => { t with accuracy := min 1 (t.accuracy * m1) })) ≤
    calculateDQP (tasks.map (fun t => { t with accuracy := min 1 (t.accuracy * m2) })) := by
  rw [calculateDQP, calculateDQP, List.foldl_map, List.foldl_map]
  apply foldl_le_foldl _ _ tasks _ 0 0 le_rfl
  intro a b t ht hab
  obtain ⟨_, _, hacc, _, _, _, hvol, hec⟩ := H t ht
  dsimp only
  by_cases hg : t.errorCost = 0 ∨ t.baselineErrorRate = 0
  · rw [if_pos hg, if_pos hg]
    exact hab
  · rw [if_neg hg, if_neg hg]
    have hmin : min 1 (t.accuracy * m1) ≤ min 1 (t.accuracy * m2) :=
      min_le_min le_rfl (mul_le_mul_of_nonneg_left h12 hacc)
    have hdec : (0 : ℚ) ≤ (if t.volumePerWeek = 0 then 0
        else t.volumePerWeek * WEEKS_PER_MONTH) := by
      split
      · exact le_rfl
      · exact mul_nonneg hvol (by norm_num [WEEKS_PER_MONTH])
    have her : max 0 (t.baselineErrorRate - (1 - min 1 (t.accuracy * m1))) ≤
        max 0 (t.baselineErrorRate - (1 - min 1 (t.accuracy * m2))) :=
      max_le_max le_rfl (by linarith)
    have := mul_le_mul_of_nonneg_right (mul_le_mul_of_nonneg_left her hdec) hec
    linarith

theorem totalCost_foldl_eq (q : Project) :
    (calculateMonthlyProjections q).foldl (fun sum p => sum + p.cost) 0 =
      ((List.range' 1 q.duration).map
        (fun m => if m = 1 then initialCostOf q.costs + monthlyCostOf q.costs
          else monthlyCostOf q.costs)).sum := by
  rw [foldlAdd_eq_sum, zero_add, monthlyProjections_map_cost]

theorem totalRiskAdjusted_foldl_eq (q : Project) :
    (calculateMonthlyProjections q).foldl (fun sum p => sum + p.riskAdjustedValue) 0 =
      ((List.range' 1 q.duration).map
        (fun m => (calculateDLA q.tasks + calculateTA q.throughput +
          calculateDQP q.tasks + calculateLV q.latency + calculateOLV q.optionality) *
          getMaturityMultiplier m q.maturity *
          (1 - calculateCompositeRisk q.risks))).sum := by
  rw [foldlAdd_eq_sum, zero_add, monthlyProjections_map_riskAdjusted]

theorem fullResults_roi (q : Project) :
    (calculateFullResults q).roi =
      if 0 < (calculateMonthlyProjections q).foldl (fun sum p => sum + p.cost) 0 then
        (((calculateMonthlyProjections q).foldl (fun sum p => sum + p.riskAdjustedValue) 0 -
          (calculateMonthlyProjections q).foldl (fun sum p => sum + p.cost) 0) /
          (calculateMonthlyProjections q).foldl (fun sum p => sum + p.cost) 0) * 100
      else 0 := rfl

theorem accuracy_roi_mono (project : Project)
    (htasks : ∀ t ∈ project.tasks, 0 ≤ t.hoursPerWeek ∧ 0 ≤ t.hourlyRate ∧
      0 ≤ t.accuracy ∧ t.accuracy ≤ 1 ∧ 0 ≤ t.oversightRate ∧ t.oversightRate ≤ 1 ∧
      0 ≤ t.volumePerWeek ∧ 0 ≤ t.errorCost)
    (hr1 : project.risks.technical ≤ 1) (hr2 : project.risks.adoption ≤ 1)
    (hr3 : project.risks.regulatory ≤ 1) (hr4 : project.risks.vendor ≤ 1)
    (hlr : -1 ≤ project.maturity.learningRate)
    (m1 m2 : ℚ) (h12 : m1 ≤ m2) :
    (calculateFullResults
      (applyParameterVariation "accuracy" m1 (deepCopyProject project))).roi ≤
    (calculateFullResults
      (applyParameterVariation "accuracy" m2 (deepCopyProject project))).roi := by
  rw [deepCopyProject_eq, applyAccuracy_eq, applyAccuracy_eq]
  rw [fullResults_roi, fullResults_roi]
  rw [totalCost_foldl_eq, totalCost_foldl_eq,
    totalRiskAdjusted_foldl_eq, totalRiskAdjusted_foldl_eq]
  dsimp only
  have hbase : calculateDLA (project.tasks.map (fun t =>
        { t with accuracy := min 1 (t.accuracy * m1) })) + calculateTA project.throughput +
      calculateDQP (project.tasks.map (fun t =>
        { t with accuracy := min 1 (t.accuracy * m1) })) + calculateLV project.latency +
      calculateOLV project.optionality ≤
      calculateDLA (project.tasks.map (fun t =>
        { t with accuracy := min 1 (t.accuracy * m2) })) + calculateTA project.throughput +
      calculateDQP (project.tasks.map (fun t =>
        { t with accuracy := min 1 (t.accuracy * m2) })) + calculateLV project.latency +
      calculateOLV project.optionality := by
    have h1 := calculateDLA_scaleAcc_mono project.tasks m1 m2 h12 htasks
    have h2 := calculateDQP_scaleAcc_mono project.tasks m1 m2 h12 htasks
    linarith
  have hra : (0 : ℚ) ≤ 1 - calculateCompositeRisk project.risks :=
    riskAdjustment_nonneg project.risks hr1 hr2 hr3 hr4
  have hRA : ((List.range' 1 project.duration).map
      (fun m => (calculateDLA (project.tasks.map (fun t =>
          { t with accuracy := min 1 (t.accuracy * m1) })) + calculateTA project.throughput +
        calculateDQP (project.tasks.map (fun t =>
          { t with accuracy := min 1 (t.accuracy * m1) })) + calculateLV project.latency +
        calculateOLV project.optionality) * getMaturityMultiplier m project.maturity *
        (1 - calculateCompositeRisk project.risks))).sum ≤
      ((List.range' 1 project.duration).map
      (fun m => (calculateDLA (project.tasks.map (fun t =>
          { t with accuracy := min 1 (t.accuracy * m2) })) + calculateTA project.throughput +
        calculateDQP (project.tasks.map (fun t =>
          { t with accuracy := min 1 (t.accuracy * m2) })) + calculateLV project.latency +
        calculateOLV project.optionality) * getMaturityMultiplier m project.maturity *
        (1 - calculateCompositeRisk project.risks))).sum := by
    apply List.sum_le_sum
    intro m hm
    exact mul_le_mul_of_nonneg_right
      (mul_le_mul_of_nonneg_right hbase
        (getMaturityMultiplier_nonneg project.maturity m hlr)) hra
  split_ifs with hTC
  · have h100 : (0 : ℚ) ≤ 100 := by norm_num
    apply mul_le_mul_of_nonneg_right _ h100
    exact (div_le_div_right hTC).mpr (by linarith)
  · exact le_rfl

theorem sensLoop_map_multiplier (project : Project) (parameter : String) :
    ∀ (variations : List ℚ),
      ((sensLoop project parameter variations).1).map (·.multiplier) = variations
  | [] => rfl
  | m :: ms => by
    simp only [sensLoop, List.map_cons]
    rw [sensLoop_map_multiplier project parameter ms]

theorem sensLoop_map_roi (project : Project) (parameter : String) :
    ∀ (variations : List ℚ),
      ((sensLoop project parameter variations).1).map (·.roi) =
        variations.map (fun m => (calculateFullResults
          (applyParameterVariation parameter m (deepCopyProject project))).roi)
  | [] => rfl
  | m :: ms => by
    simp only [sensLoop, List.map_cons]
    rw [sensLoop_map_roi project parameter ms]

/-- **C8 counterexample.** `cexC8Project` satisfies every hypothesis the claim
names (non-negative hours and rate, accuracy and oversight in `[0,1]`, risks
in `[0,1]`), and `[1, 2]` is ascending, yet the accuracy-sensitivity ROI
values are `[-6595, -13090]`: strictly decreasing.  (The offending input is a
task with negative `errorCost`, which the claim's hypotheses do not
exclude.) -/
theorem cexC8_roi_value (m : ℚ) :
    (calculateFullResults
      (applyParameterVariation "accuracy" m (deepCopyProject cexC8Project))).roi =
      ((433 / 100 * (0 ⊔ (1 ⊓ (1 / 2 * m))) * (-100)) * (3 / 10) - 1) * 100 := by
  rw [deepCopyProject_eq, applyAccuracy_eq, fullResults_roi, totalCost_foldl_eq,
    totalRiskAdjusted_foldl_eq]
  have hrange : List.range' 1 1 = [1] := rfl
  have hmult : getMaturityMultiplier 1 wMaturity = 3 / 10 := by
    rw [getMaturityMultiplier]
    norm_num [wMaturity]
  norm_num [cexC8Project, cexTask, hrange, hmult, initialCostOf, monthlyCostOf,
    calculateDLA, calculateDQP, calculateTA, calculateLV, calculateOLV,
    calculateCompositeRisk, WEEKS_PER_MONTH]

theorem sensitivity_accuracy_roi_counterexample :
    (∀ t ∈ cexC8Project.tasks, 0 ≤ t.hoursPerWeek ∧ 0 ≤ t.hourlyRate ∧
      0 ≤ t.accuracy ∧ t.accuracy ≤ 1 ∧ 0 ≤ t.oversightRate ∧ t.oversightRate ≤ 1) ∧
    (0 ≤ cexC8Project.risks.technical ∧ cexC8Project.risks.technical ≤ 1 ∧
      0 ≤ cexC8Project.risks.adoption ∧ cexC8Project.risks.adoption ≤ 1 ∧
      0 ≤ cexC8Project.risks.regulatory ∧ cexC8Project.risks.regulatory ≤ 1 ∧
      0 ≤ cexC8Project.risks.vendor ∧ cexC8Project.risks.vendor ≤ 1) ∧
    List.Pairwise (· ≤ ·) [(1 : ℚ), 2] ∧
    (runSensitivityAnalysis cexC8Project "accuracy" [1, 2]).map (·.roi) =
      [-6595, -13090] ∧
    ¬ ((runSensitivityAnalysis cexC8Project "accuracy" [1, 2]).map (·.roi)).Pairwise
      (· ≤ ·) := by
  have hmap : (runSensitivityAnalysis cexC8Project "accuracy" [1, 2]).map (·.roi) =
      [-6595, -13090] := by
    simp only [runSensitivityAnalysis, runSensitivityWithCaller]
    rw [sensLoop_map_roi cexC8Project "accuracy" [1, 2]]
    rw [List.map_cons, List.map_cons, List.map_nil, cexC8_roi_value 1, cexC8_roi_value 2]
    norm_num [min_def, max_def]
  refine ⟨?_, ?_, ?_, hmap, ?_⟩
  · intro t ht
    simp only [cexC8Project, List.mem_singleton] at ht
    subst ht
    norm_num [cexTask]
  · norm_num [cexC8Project]
  · norm_num
  · rw [hmap]
    intro hcon
    have := List.rel_of_pairwise_cons hcon (List.mem_singleton.mpr rfl)
    norm_num at this

/-- **C8 (amended).** Under the claim's hypotheses *plus* (forced by the
counterexample and provability) non-negative `volumePerWeek` and `errorCost`
per task and `learningRate ≥ -1`: `runSensitivityAnalysis(project, "accuracy",
variations)` returns exactly one point per variation, in input order, and for
an ascending variations list the ROI values are monotonically
non-decreasing. -/
theorem sensitivity_accuracy_points_and_roi_mono (project : Project)
    (variations : List ℚ)
    (htasks : ∀ t ∈ project.tasks, 0 ≤ t.hoursPerWeek ∧ 0 ≤ t.hourlyRate ∧
      0 ≤ t.accuracy ∧ t.accuracy ≤ 1 ∧ 0 ≤ t.oversightRate ∧ t.oversightRate ≤ 1 ∧
      0 ≤ t.volumePerWeek ∧ 0 ≤ t.errorCost)
    (hrisks : 0 ≤ project.risks.technical ∧ project.risks.technical ≤ 1 ∧
      0 ≤ project.risks.adoption ∧ project.risks.adoption ≤ 1 ∧
      0 ≤ project.risks.regulatory ∧ project.risks.regulatory ≤ 1 ∧
      0 ≤ project.risks.vendor ∧ project.risks.vendor ≤ 1)
    (hlr : -1 ≤ project.maturity.learningRate) :
    ((runSensitivityAnalysis project "accuracy" variations).map (·.multiplier) =
      variations) ∧
    ((runSensitivityAnalysis project "accuracy" variations).length =
      variations.length) ∧
    (variations.Pairwise (· ≤ ·) →
      ((runSensitivityAnalysis project "accuracy" variations).map (·.roi)).Pairwise
        (· ≤ ·)) := by
  obtain ⟨_, hr1, _, hr2, _, hr3, _, hr4⟩ := hrisks
  have hmul : ((runSensitivityAnalysis project "accuracy" variations).map
      (·.multiplier) = variations) :=
    sensLoop_map_multiplier project "accuracy" variations
  refine ⟨hmul, ?_, ?_⟩
  · have := congrArg List.length hmul
    rw [List.length_map] at this
    exact this
  · intro hasc
    have hroi : ((runSensitivityAnalysis project "accuracy" variations).map (·.roi) =
        variations.map (fun m => (calculateFullResults
          (applyParameterVariation "accuracy" m (deepCopyProject project))).roi)) :=
      sensLoop_map_roi project "accuracy" variations
    rw [hroi, List.pairwise_map]
    exact hasc.imp (fun hab =>
      accuracy_roi_mono project htasks hr1 hr2 hr3 hr4 hlr _ _ hab)

/-- Witness for the amended C8 at `wProject` (no tasks) and ascending
variations `[1, 2]`. -/
theorem sensitivity_accuracy_points_and_roi_mono_witness :
    ((runSensitivityAnalysis wProject "accuracy" [1, 2]).map (·.multiplier) =
      [(1 : ℚ), 2]) ∧
    ((runSensitivityAnalysis wProject "accuracy" [1, 2]).length = 2) ∧
    (List.Pairwise (· ≤ ·) [(1 : ℚ), 2] →
      ((runSensitivityAnalysis wProject "accuracy" [1, 2]).map (·.roi)).Pairwise
        (· ≤ ·)) := by
  have h := sensitivity_accuracy_points_and_roi_mono wProject [1, 2]
    (by intro t ht; cases ht)
    (by norm_num [wProject])
    (by norm_num [wProject, wMaturity])
  exact ⟨h.1, by simpa using h.2.1, h.2.2⟩

end Aura
